import Mathlib

/-!
Verification of the root-route module of the hydrogen storefront
(`src/app/root.tsx`).

JS/TS strings are modelled as `List Char`; a URL (as produced by the JS
`URL` constructor) is modelled by its `origin`, `host`, `pathname` and the
parsed list of `searchParams` key/value pairs (keys and values taken as
already-decoded opaque text).  Promises are modelled by their settled
outcome: `Except E A` is a promise that either fulfilled with an `A` or
rejected with an `E`.
-/

set_option autoImplicit false

namespace Root

/-- A parsed absolute URL: `origin`, `host`, `pathname`, `searchParams`,
as exposed by the JS `URL` object. -/
structure Url where
  origin : List Char
  host : List Char
  pathname : List Char
  searchParams : List (List Char × List Char)
  deriving Repr, DecidableEq

/-- The fixed allow-list used by `cleanParams` (`const whitelistedParams = ['color']`). -/
def whitelistedParams : List (List Char) := ["color".toList]

/-- The filtered parameter list of `cleanParams`:
`Array.from(url.searchParams).filter(([key]) => whitelistedParams.includes(key))`. -/
def keptParams (url : Url) : List (List Char × List Char) :=
  url.searchParams.filter (fun kv => whitelistedParams.contains kv.1)

/-- `new URLSearchParams(params).toString()`: `key=value` pairs joined by
`&` in order (the empty string for no pairs). -/
def paramsToString : List (List Char × List Char) → List Char
  | [] => []
  | [kv] => kv.1 ++ '=' :: kv.2
  | kv :: kv' :: rest => kv.1 ++ '=' :: kv.2 ++ '&' :: paramsToString (kv' :: rest)

/-- `cleanParams`: serialize the whitelisted query parameters. -/
def cleanParams (url : Url) : List Char :=
  paramsToString (keptParams url)

/-- The regex `/^\/([a-z]{2})-([a-z]{2})(\/|$)/i` applied to a pathname:
`some m` holds the matched text `m` (either `/xx-yy` at the end of the
string, or `/xx-yy/`), `none` means no match.  The `i` flag makes the
letter classes ASCII-case-insensitive, i.e. `Char.isAlpha`. -/
def localeMatch (p : List Char) : Option (List Char) :=
  match p with
  | s :: a :: b :: dash :: c :: d :: rest =>
    if s == '/' && a.isAlpha && b.isAlpha && dash == '-' && c.isAlpha && d.isAlpha then
      match rest with
      | [] => some [s, a, b, dash, c, d]
      | r :: _ => if r == '/' then some [s, a, b, dash, c, d, r] else none
    else none
  | _ => none

/-- JS `String.prototype.replace` with a plain-string pattern: replace the
first occurrence of `needle` in `s` by `r` (no occurrence: `s` unchanged). -/
def replaceFirst : List Char → List Char → List Char → List Char
  | [], needle, r => if needle.isEmpty then r else []
  | ch :: cs, needle, r =>
    if needle.isPrefixOf (ch :: cs) then r ++ (ch :: cs).drop needle.length
    else ch :: replaceFirst cs needle r

/-- `cleanLocaleFromPathname`: strip a leading locale segment, replacing the
regex match by `'/'`; no match leaves the pathname unchanged. -/
def cleanLocaleFromPathname (p : List Char) : List Char :=
  match localeMatch p with
  | some m => replaceFirst p m ['/']
  | none => p

/-- One hreflang entry: `{language, url, default}`. -/
structure Hreflang where
  language : List Char
  url : List Char
  isDefault : Bool
  deriving Repr, DecidableEq

/-- `createHreflangs`: the single `en-us` default entry whose url is
`origin + cleaned pathname + ('?' + params when non-empty)`. -/
def createHreflangs (url : Url) : List Hreflang :=
  let paramString := cleanParams url
  let pathname := cleanLocaleFromPathname url.pathname
  [{ language := "en-us".toList
     url := url.origin ++ pathname ++ (if paramString ≠ [] then '?' :: paramString else [])
     isDefault := true }]

/-- `createCanonicalUrl`: `origin + cleaned pathname + '?' + params` when the
filtered parameter string is non-empty, otherwise `origin + cleaned pathname`. -/
def createCanonicalUrl (url : Url) : List Char :=
  let paramString := cleanParams url
  let pathname := cleanLocaleFromPathname url.pathname
  if paramString ≠ [] then url.origin ++ pathname ++ '?' :: paramString
  else url.origin ++ pathname

/-- `robots` directives of the SEO descriptor. -/
structure Robots where
  noFollow : Bool
  deriving Repr, DecidableEq

/-- The social-card media block of the SEO descriptor. -/
structure SeoMedia where
  mediaType : List Char
  url : List Char
  height : Nat
  width : Nat
  altText : List Char
  deriving Repr, DecidableEq

/-- The JSON-LD organization record of the SEO descriptor. -/
structure JsonLd where
  id : List Char
  name : List Char
  logo : List Char
  sameAs : List (List Char)
  url : List Char
  deriving Repr, DecidableEq

/-- The SEO descriptor built by `rootSeo`. -/
structure Seo where
  title : List Char
  description : List Char
  titleTemplate : List Char
  media : SeoMedia
  handle : List Char
  url : List Char
  robots : Robots
  alternates : List Hreflang
  jsonLd : JsonLd
  deriving Repr, DecidableEq

/-- `rootSeo`: builds the SEO descriptor from the request URL; `noIndex` is
host equality with the two literal staging/dev hostnames. -/
def rootSeo (url : Url) : Seo :=
  let noIndex := url.host == "dev.honeylove.com".toList || url.host == "staging.honeylove.com".toList
  let canonicalUrl := createCanonicalUrl url
  let hreflangs := createHreflangs url
  { title := "Honeylove® · Where function meets fashion".toList
    description := ("Honeylove makes stylish garments with built-in shaping power, applying " ++
      "technical and artistic products for customers of all shapes, sizes, and backgrounds.").toList
    titleTemplate := "%s".toList
    media := { mediaType := "image".toList, url := "og_homepage_480x.png".toList,
               height := 252, width := 480, altText := "Models in a grid".toList }
    handle := "@gethoneylove".toList
    url := canonicalUrl
    robots := { noFollow := noIndex }
    alternates := hreflangs
    jsonLd := { id := "https://www.honeylove.com/".toList
                name := "Honeylove".toList
                logo := "og_homepage_480x.png".toList
                sameAs := ["https://twitter.com/gethoneylove".toList,
                           "https://facebook.com/GetHoneylove".toList,
                           "https://www.instagram.com/honeylove/".toList,
                           "https://youtube.com/@gethoneylove".toList,
                           "https://tiktok.com/@honeylove".toList]
                url := canonicalUrl } }

/-- `shouldRevalidate`: `formMethod` is the optional form method of the
triggering navigation (absent on plain navigations), `currentUrl` and
`nextUrl` are the two navigation URLs as strings (`toString()`). -/
def shouldRevalidate (formMethod : Option (List Char))
    (currentUrl nextUrl : List Char) : Bool :=
  if (match formMethod with
      | some m => m != "GET".toList
      | none => false) then true
  else if currentUrl == nextUrl then true
  else false

/-- The environment configuration read by `loader`. -/
structure Env where
  PUBLIC_STORE_DOMAIN : List Char
  PUBLIC_STOREFRONT_ID : List Char
  PUBLIC_CHECKOUT_DOMAIN : List Char
  PUBLIC_STOREFRONT_API_TOKEN : List Char

/-- The `consent` block of the loader's result. -/
structure Consent where
  checkoutDomain : List Char
  storefrontAccessToken : List Char

/-- Result of `loadCriticalData`: the awaited header query. -/
structure CriticalData (H : Type) where
  header : H

/-- Result of `loadDeferredData`: the three deferred promises, each modelled
by its eventual settlement. -/
structure DeferredData (E C L F : Type) where
  cart : Except E C
  isLoggedIn : Except E L
  footer : Except E (Option F)

/-- The object passed to `defer` by `loader` (spread of deferred data,
critical data, `seo` and the env-derived fields). -/
structure PageData (E H C L F S : Type) where
  header : H
  cart : Except E C
  isLoggedIn : Except E L
  footer : Except E (Option F)
  seo : Seo
  publicStoreDomain : List Char
  shop : S
  consent : Consent

/-- `loadCriticalData`: awaits the header query (`Promise.all` of the single
query), so a rejected header fetch rejects the whole call; on success it
returns `{header}`. -/
def loadCriticalData {E H : Type} (headerResult : Except E H) :
    Except E (CriticalData H) :=
  match headerResult with
  | Except.ok h => Except.ok { header := h }
  | Except.error e => Except.error e

/-- `loadDeferredData`: the footer query gets a `.catch` that logs the error
and resolves to `null`; the cart and login promises are returned as-is.  The
second component is the list of errors written by `console.error`. -/
def loadDeferredData {E C L F : Type} (cartResult : Except E C)
    (loginResult : Except E L) (footerResult : Except E F) :
    DeferredData E C L F × List E :=
  let footer : Except E (Option F) :=
    match footerResult with
    | Except.ok v => Except.ok (some v)
    | Except.error _ => Except.ok none
  let log : List E :=
    match footerResult with
    | Except.ok _ => []
    | Except.error e => [e]
  ({ cart := cartResult, isLoggedIn := loginResult, footer := footer }, log)

/-- `loader`: starts the deferred fetches, awaits the critical data (so a
header-fetch rejection rejects the returned promise), then assembles the
deferred result.  `shopAnalytics` stands for the value returned by the
external `getShopAnalytics` call.  The second component is the
`console.error` log produced by the deferred path. -/
def loader {E H C L F S : Type} (shopAnalytics : S) (env : Env) (requestUrl : Url)
    (headerResult : Except E H) (cartResult : Except E C)
    (loginResult : Except E L) (footerResult : Except E F) :
    Except E (PageData E H C L F S) × List E :=
  let deferredData := loadDeferredData cartResult loginResult footerResult
  match loadCriticalData headerResult with
  | Except.error e => (Except.error e, deferredData.2)
  | Except.ok criticalData =>
    (Except.ok
      { header := criticalData.header
        cart := deferredData.1.cart
        isLoggedIn := deferredData.1.isLoggedIn
        footer := deferredData.1.footer
        seo := rootSeo requestUrl
        publicStoreDomain := env.PUBLIC_STORE_DOMAIN
        shop := shopAnalytics
        consent := { checkoutDomain := env.PUBLIC_CHECKOUT_DOMAIN
                     storefrontAccessToken := env.PUBLIC_STOREFRONT_API_TOKEN } },
      deferredData.2)

/-- The shape of the value returned by `useRouteError`, as the
`ErrorBoundary` discriminates it: a route error response (with its `status`,
an optional `data.message`, and the raw `data` as fallback text), an `Error`
instance, or anything else. -/
inductive RouteError where
  | response (status : Nat) (dataMessage : Option (List Char)) (data : List Char)
  | errorInstance (message : List Char)
  | other
  deriving Repr, DecidableEq

/-- `ErrorBoundary`'s computation of the displayed `(errorStatus, errorMessage)`:
defaults `500` and `"Unknown error"`, overridden for route error responses
(`error.status`, `error?.data?.message ?? error.data`) and for `Error`
instances (message only). -/
def errorBoundary (e : RouteError) : Nat × List Char :=
  let errorMessage := "Unknown error".toList
  let errorStatus := 500
  match e with
  | RouteError.response status dataMessage data =>
    (status, match dataMessage with | some msg => msg | none => data)
  | RouteError.errorInstance message => (errorStatus, message)
  | RouteError.other => (errorStatus, errorMessage)

/-- Claim-side predicate: the pathname begins with a locale segment, i.e.
the locale regex matches it. -/
def beginsWithLocale (p : List Char) : Bool :=
  (localeMatch p).isSome

/-- Claim-side predicate: the pathname begins with two consecutive locale
segments (so a single strip leaves a locale prefix behind). -/
def beginsWithDoubleLocale (p : List Char) : Bool :=
  match localeMatch p with
  | some m => beginsWithLocale ('/' :: p.drop m.length)
  | none => false

/-- A concrete request URL used to instantiate the universally quantified
theorems below. -/
def url0 : Url :=
  { origin := "https://www.honeylove.com".toList
    host := "www.honeylove.com".toList
    pathname := "/shop".toList
    searchParams := [("color".toList, "red".toList), ("ref".toList, "abc".toList)] }

/-- A concrete environment used to instantiate the loader theorems below. -/
def env0 : Env :=
  { PUBLIC_STORE_DOMAIN := "www.honeylove.com".toList
    PUBLIC_STOREFRONT_ID := "sf-id".toList
    PUBLIC_CHECKOUT_DOMAIN := "checkout.honeylove.com".toList
    PUBLIC_STOREFRONT_API_TOKEN := "tok".toList }

/-! ## Lemmas about the locale matcher and pathname cleaner -/

lemma localeMatch_cons_end (a b c d : Char) (ha : a.isAlpha) (hb : b.isAlpha)
    (hc : c.isAlpha) (hd : d.isAlpha) :
    localeMatch ['/', a, b, '-', c, d] = some ['/', a, b, '-', c, d] := by
  simp [localeMatch, ha, hb, hc, hd]

lemma localeMatch_cons_slash (a b c d : Char) (r : List Char) (ha : a.isAlpha)
    (hb : b.isAlpha) (hc : c.isAlpha) (hd : d.isAlpha) :
    localeMatch ('/' :: a :: b :: '-' :: c :: d :: '/' :: r) =
      some ['/', a, b, '-', c, d, '/'] := by
  simp [localeMatch, ha, hb, hc, hd]

lemma localeMatch_shape {p m : List Char} (h : localeMatch p = some m) :
    ∃ a b c d rest, p = '/' :: a :: b :: '-' :: c :: d :: rest ∧
      a.isAlpha ∧ b.isAlpha ∧ c.isAlpha ∧ d.isAlpha ∧
      ((rest = [] ∧ m = ['/', a, b, '-', c, d]) ∨
       (∃ r', rest = '/' :: r' ∧ m = ['/', a, b, '-', c, d, '/'])) := by
  rcases p with _ | ⟨s, _ | ⟨a, _ | ⟨b, _ | ⟨dash, _ | ⟨c, _ | ⟨d, rest⟩⟩⟩⟩⟩⟩
  · exact absurd h (by simp [localeMatch])
  · exact absurd h (by simp [localeMatch])
  · exact absurd h (by simp [localeMatch])
  · exact absurd h (by simp [localeMatch])
  · exact absurd h (by simp [localeMatch])
  · exact absurd h (by simp [localeMatch])
  · cases rest with
    | nil =>
      have h0 : (if (s == '/' && a.isAlpha && b.isAlpha && dash == '-' &&
          c.isAlpha && d.isAlpha) = true
          then some [s, a, b, dash, c, d] else none) = some m := h
      by_cases hcond : (s == '/' && a.isAlpha && b.isAlpha && dash == '-' &&
          c.isAlpha && d.isAlpha) = true
      · rw [if_pos hcond] at h0
        simp only [Bool.and_eq_true, beq_iff_eq] at hcond
        obtain ⟨⟨⟨⟨⟨hs, ha⟩, hb⟩, hdash⟩, hc⟩, hd⟩ := hcond
        refine ⟨a, b, c, d, [], ?_, ha, hb, hc, hd, Or.inl ⟨rfl, ?_⟩⟩
        · rw [hs, hdash]
        · rw [← Option.some.inj h0, hs, hdash]
      · rw [if_neg hcond] at h0; exact absurd h0 (by simp)
    | cons r rest' =>
      have h0 : (if (s == '/' && a.isAlpha && b.isAlpha && dash == '-' &&
          c.isAlpha && d.isAlpha) = true
          then (if (r == '/') = true then some [s, a, b, dash, c, d, r] else none)
          else none) = some m := h
      by_cases hcond : (s == '/' && a.isAlpha && b.isAlpha && dash == '-' &&
          c.isAlpha && d.isAlpha) = true
      · rw [if_pos hcond] at h0
        by_cases hr : (r == '/') = true
        · rw [if_pos hr] at h0
          simp only [Bool.and_eq_true, beq_iff_eq] at hcond
          obtain ⟨⟨⟨⟨⟨hs, ha⟩, hb⟩, hdash⟩, hc⟩, hd⟩ := hcond
          rw [beq_iff_eq] at hr
          refine ⟨a, b, c, d, r :: rest', ?_, ha, hb, hc, hd,
            Or.inr ⟨rest', ?_, ?_⟩⟩
          · rw [hs, hdash, hr]
          · rw [hr]
          · rw [← Option.some.inj h0, hs, hdash, hr]
        · rw [if_neg hr] at h0; exact absurd h0 (by simp)
      · rw [if_neg hcond] at h0; exact absurd h0 (by simp)

lemma cleanLocale_end (a b c d : Char) (ha : a.isAlpha) (hb : b.isAlpha)
    (hc : c.isAlpha) (hd : d.isAlpha) :
    cleanLocaleFromPathname ['/', a, b, '-', c, d] = ['/'] := by
  simp [cleanLocaleFromPathname, localeMatch_cons_end a b c d ha hb hc hd,
    replaceFirst, List.isPrefixOf]

lemma cleanLocale_slash (a b c d : Char) (r : List Char) (ha : a.isAlpha)
    (hb : b.isAlpha) (hc : c.isAlpha) (hd : d.isAlpha) :
    cleanLocaleFromPathname ('/' :: a :: b :: '-' :: c :: d :: '/' :: r) = '/' :: r := by
  simp [cleanLocaleFromPathname, localeMatch_cons_slash a b c d r ha hb hc hd,
    replaceFirst, List.isPrefixOf]

lemma cleanLocale_of_none {p : List Char} (h : localeMatch p = none) :
    cleanLocaleFromPathname p = p := by
  simp [cleanLocaleFromPathname, h]

lemma cleanLocale_of_some {p m : List Char} (h : localeMatch p = some m) :
    cleanLocaleFromPathname p = '/' :: p.drop m.length := by
  obtain ⟨a, b, c, d, rest, hp, ha, hb, hc, hd, hrest⟩ := localeMatch_shape h
  rcases hrest with ⟨hrest, hm⟩ | ⟨r', hrest, hm⟩
  · subst hp; subst hrest; subst hm
    simpa using cleanLocale_end a b c d ha hb hc hd
  · subst hp; subst hrest; subst hm
    simpa using cleanLocale_slash a b c d r' ha hb hc hd

/-! ## C4: locale stripping -/

/-- C4: a pathname beginning with a two-letter–dash–two-letter segment
(case-insensitive) has that segment removed, leaving the remainder of the
path (`/` if nothing remains); any other pathname is returned unchanged. -/
theorem claim4_locale_stripping (p : List Char) :
    (∀ a b c d rest, p = '/' :: a :: b :: '-' :: c :: d :: rest →
      a.isAlpha → b.isAlpha → c.isAlpha → d.isAlpha →
      ((rest = [] → cleanLocaleFromPathname p = ['/']) ∧
       (∀ r', rest = '/' :: r' → cleanLocaleFromPathname p = '/' :: r'))) ∧
    ((¬ ∃ a b c d rest, p = '/' :: a :: b :: '-' :: c :: d :: rest ∧
        a.isAlpha ∧ b.isAlpha ∧ c.isAlpha ∧ d.isAlpha ∧
        (rest = [] ∨ ∃ r', rest = '/' :: r')) →
      cleanLocaleFromPathname p = p) := by
  constructor
  · rintro a b c d rest rfl ha hb hc hd
    refine ⟨fun hrest => ?_, fun r' hrest => ?_⟩
    · subst hrest; exact cleanLocale_end a b c d ha hb hc hd
    · subst hrest; exact cleanLocale_slash a b c d r' ha hb hc hd
  · intro hne
    cases heq : localeMatch p with
    | none => exact cleanLocale_of_none heq
    | some m =>
      obtain ⟨a, b, c, d, rest, hp, ha, hb, hc, hd, hrest⟩ := localeMatch_shape heq
      refine absurd ⟨a, b, c, d, rest, hp, ha, hb, hc, hd, ?_⟩ hne
      rcases hrest with ⟨h1, _⟩ | ⟨r', h1, _⟩
      · exact Or.inl h1
      · exact Or.inr ⟨r', h1⟩

/-- C4 witness: `/en-us/shop` is stripped to `/shop`. -/
theorem claim4_locale_stripping_witness :
    cleanLocaleFromPathname ('/' :: 'e' :: 'n' :: '-' :: 'u' :: 's' :: '/' :: "shop".toList) =
      '/' :: "shop".toList :=
  ((claim4_locale_stripping _).1 'e' 'n' 'u' 's' ('/' :: "shop".toList) rfl
    (by decide) (by decide) (by decide) (by decide)).2 "shop".toList rfl

/-! ## Lemmas about the parameter filter -/

lemma paramsToString_ne_nil (kv : List Char × List Char)
    (rest : List (List Char × List Char)) : paramsToString (kv :: rest) ≠ [] := by
  cases rest <;> simp [paramsToString]

lemma mem_cleanLocale {p : List Char} {x : Char}
    (hx : x ∈ cleanLocaleFromPathname p) : x = '/' ∨ x ∈ p := by
  cases heq : localeMatch p with
  | none => rw [cleanLocale_of_none heq] at hx; exact Or.inr hx
  | some m =>
    rw [cleanLocale_of_some heq] at hx
    rcases List.mem_cons.mp hx with h | h
    · exact Or.inl h
    · exact Or.inr (List.drop_subset m.length p h)

lemma mem_keptParams_iff {url : Url} {kv : List Char × List Char} :
    kv ∈ keptParams url ↔ kv ∈ url.searchParams ∧ kv.1 ∈ whitelistedParams := by
  simp [keptParams, List.mem_filter]

/-! ## C5: parameter whitelist filtering and the canonical query string -/

/-- C5: the filter retains exactly the parameters whose key is in the
allow-list, as an order-preserving sublist; the serialized string is empty
iff no parameter survives; and the canonical URL contains `?` iff the
filtered string is non-empty (for a well-formed URL, whose origin and
pathname contain no `?`). -/
theorem claim5_param_whitelist (url : Url) (hO : '?' ∉ url.origin)
    (hP : '?' ∉ url.pathname) :
    List.Sublist (keptParams url) url.searchParams ∧
    (∀ kv ∈ keptParams url, kv.1 ∈ whitelistedParams) ∧
    (∀ kv ∈ url.searchParams, kv.1 ∈ whitelistedParams → kv ∈ keptParams url) ∧
    (cleanParams url = [] ↔ keptParams url = []) ∧
    ('?' ∈ createCanonicalUrl url ↔ cleanParams url ≠ []) := by
  refine ⟨List.filter_sublist _, fun kv hkv => (mem_keptParams_iff.mp hkv).2,
    fun kv hkv hw => mem_keptParams_iff.mpr ⟨hkv, hw⟩, ?_, ?_⟩
  · constructor
    · intro h
      cases hk : keptParams url with
      | nil => rfl
      | cons kv rest =>
        exact absurd (by rw [cleanParams, hk] at h; exact h)
          (paramsToString_ne_nil kv rest)
    · intro h; rw [cleanParams, h]; rfl
  · constructor
    · intro hmem hnil
      rw [createCanonicalUrl] at hmem
      simp only [hnil, ne_eq, not_true_eq_false, if_false] at hmem
      rcases List.mem_append.mp hmem with h | h
      · exact hO h
      · rcases mem_cleanLocale h with h | h
        · exact absurd h (by decide)
        · exact hP h
    · intro hne
      rw [createCanonicalUrl]
      simp only [ne_eq, hne, not_false_eq_true, if_true]
      exact List.mem_append.mpr (Or.inr (List.mem_cons_self _ _))

/-- C5 witness: on `https://www.honeylove.com/shop?color=red&ref=abc` the
`ref` parameter is dropped and the canonical URL keeps a `?`. -/
theorem claim5_param_whitelist_witness :
    ("color".toList, "red".toList) ∈ keptParams url0 ∧
    ('?' ∈ createCanonicalUrl url0 ↔ cleanParams url0 ≠ []) :=
  ⟨(claim5_param_whitelist url0 (by decide) (by decide)).2.2.1
      ("color".toList, "red".toList) (by decide) (by decide),
   (claim5_param_whitelist url0 (by decide) (by decide)).2.2.2.2⟩

/-! ## C10: the whitelist match is exact and case-sensitive -/

/-- C10: a query parameter whose key differs from `color` (even only in
letter case) is dropped by the filter, while locale-prefix matching on the
pathname is case-insensitive. -/
theorem claim10_case_sensitive_whitelist :
    (∀ (url : Url) (kv : List Char × List Char), kv ∈ url.searchParams →
      kv.1 ≠ "color".toList → kv ∉ keptParams url) ∧
    cleanParams { origin := []
                  host := []
                  pathname := []
                  searchParams := [("Color".toList, "red".toList),
                                   ("COLOR".toList, "blue".toList)] } = [] ∧
    cleanLocaleFromPathname "/EN-US/shop".toList = "/shop".toList := by
  refine ⟨?_, by decide, by decide⟩
  intro url kv _ hne hmem
  have hw := (mem_keptParams_iff.mp hmem).2
  simp only [whitelistedParams, List.mem_singleton] at hw
  exact hne hw

/-- C10 witness: the `Color` parameter of a concrete URL is not retained. -/
theorem claim10_case_sensitive_whitelist_witness :
    ("Color".toList, "red".toList) ∉
      keptParams { origin := []
                   host := []
                   pathname := []
                   searchParams := [("Color".toList, "red".toList)] } :=
  claim10_case_sensitive_whitelist.1 _ ("Color".toList, "red".toList)
    (by decide) (by decide)

/-! ## C6: the robots no-index flag -/

/-- C6: the SEO descriptor's `noFollow` robots flag is true exactly for the
two literal staging/dev hosts, and false for every other host. -/
theorem claim6_noindex_hosts (url : Url) :
    (rootSeo url).robots.noFollow = true ↔
      url.host = "dev.honeylove.com".toList ∨
      url.host = "staging.honeylove.com".toList := by
  simp [rootSeo, Bool.or_eq_true, beq_iff_eq]

/-! ## C7: the hreflang list -/

lemma createHreflangs_eq (url : Url) :
    createHreflangs url =
      [{ language := "en-us".toList
         url := createCanonicalUrl url
         isDefault := true }] := by
  unfold createHreflangs createCanonicalUrl
  by_cases h : cleanParams url = [] <;> simp [h]

/-- C7: the hreflang list is a single entry: language `en-us`, marked
default, with exactly the canonical URL of the same input. -/
theorem claim7_hreflang_single (url : Url) :
    createHreflangs url =
      [{ language := "en-us".toList
         url := createCanonicalUrl url
         isDefault := true }] :=
  createHreflangs_eq url

/-! ## C8: the revalidation policy -/

/-- C8: `shouldRevalidate` returns true iff the navigation carries a
non-GET form method, or the next URL equals the current URL. -/
theorem claim8_revalidation (formMethod : Option (List Char))
    (currentUrl nextUrl : List Char) :
    shouldRevalidate formMethod currentUrl nextUrl = true ↔
      ((∃ m, formMethod = some m ∧ m ≠ "GET".toList) ∨ currentUrl = nextUrl) := by
  cases formMethod with
  | none => simp [shouldRevalidate]
  | some m =>
    by_cases hm : m = "GET".toList <;> simp [shouldRevalidate, hm]

/-! ## C9: the error boundary -/

/-- C9: the error boundary shows a route error response's own status and
message (falling back to its data), status 500 with the message for `Error`
instances, and status 500 with `Unknown error` for anything else. -/
theorem claim9_error_boundary :
    (∀ status dataMessage data,
      errorBoundary (RouteError.response status dataMessage data) =
        (status, dataMessage.getD data)) ∧
    (∀ message, errorBoundary (RouteError.errorInstance message) =
      (500, message)) ∧
    errorBoundary RouteError.other = (500, "Unknown error".toList) := by
  refine ⟨fun status dataMessage data => ?_, fun message => rfl, rfl⟩
  cases dataMessage <;> rfl

/-! ## C2: critical path fails loudly, deferred footer fails silently -/

/-- C2: a rejected header fetch rejects the loader's result with the same
error; a rejected footer fetch still lets the loader resolve, logs the
error, and makes the footer field resolve to `null`. -/
theorem claim2_critical_vs_deferred {E H C L F S : Type} (shopAnalytics : S)
    (env : Env) (url : Url) (headerResult : Except E H) (cartResult : Except E C)
    (loginResult : Except E L) (footerResult : Except E F) :
    (∀ e, headerResult = Except.error e →
      (loader shopAnalytics env url headerResult cartResult loginResult
        footerResult).1 = Except.error e) ∧
    (∀ h e, headerResult = Except.ok h → footerResult = Except.error e →
      ∃ pd, (loader shopAnalytics env url headerResult cartResult loginResult
          footerResult).1 = Except.ok pd ∧
        pd.footer = Except.ok none ∧
        (loader shopAnalytics env url headerResult cartResult loginResult
          footerResult).2 = [e]) := by
  constructor
  · rintro e rfl; rfl
  · rintro h e rfl rfl
    exact ⟨_, rfl, rfl, rfl⟩

/-- C2 witness: a concrete rejected header rejects the loader; a concrete
rejected footer resolves with a `null` footer and a logged error. -/
theorem claim2_critical_vs_deferred_witness :
    (loader () env0 url0 (Except.error 7 : Except Nat Nat)
      (Except.ok 1 : Except Nat Nat) (Except.ok true : Except Nat Bool)
      (Except.ok 2 : Except Nat Nat)).1 = Except.error 7 ∧
    ∃ pd, (loader () env0 url0 (Except.ok 5 : Except Nat Nat)
        (Except.ok 1 : Except Nat Nat) (Except.ok true : Except Nat Bool)
        (Except.error 9 : Except Nat Nat)).1 = Except.ok pd ∧
      pd.footer = Except.ok none ∧
      (loader () env0 url0 (Except.ok 5 : Except Nat Nat)
        (Except.ok 1 : Except Nat Nat) (Except.ok true : Except Nat Bool)
        (Except.error 9 : Except Nat Nat)).2 = [9] :=
  ⟨(claim2_critical_vs_deferred () env0 url0 _ _ _ _).1 7 rfl,
   (claim2_critical_vs_deferred () env0 url0 _ _ _ _).2 5 9 rfl rfl⟩

/-! ## C3: which deferred values are protected -/

/-- C3 counterexample: a rejected cart promise and a rejected login promise
are NOT caught by `loadDeferredData`: they are passed through as rejections
and nothing is logged, contradicting the claim that every deferred-path
failure is caught, logged and replaced with a placeholder. -/
theorem claim3_counterexample :
    (loadDeferredData (Except.error 3 : Except Nat Nat)
      (Except.error 4 : Except Nat Bool) (Except.ok 5 : Except Nat Nat)).1.cart =
      Except.error 3 ∧
    (loadDeferredData (Except.error 3 : Except Nat Nat)
      (Except.error 4 : Except Nat Bool)
      (Except.ok 5 : Except Nat Nat)).1.isLoggedIn = Except.error 4 ∧
    (loadDeferredData (Except.error 3 : Except Nat Nat)
      (Except.error 4 : Except Nat Bool) (Except.ok 5 : Except Nat Nat)).2 = [] :=
  ⟨rfl, rfl, rfl⟩

/-- C3 amended: only the footer fetch failure is caught, logged and replaced
with `null`; the cart and login-status promises are returned unchanged
(uncaught); and no deferred result affects the loader's success once the
header fetch succeeded. -/
theorem claim3_deferred_policy {E H C L F S : Type} (shopAnalytics : S)
    (env : Env) (url : Url) (headerValue : H) (cartResult : Except E C)
    (loginResult : Except E L) (footerResult : Except E F) :
    (loadDeferredData cartResult loginResult footerResult).1.cart = cartResult ∧
    (loadDeferredData cartResult loginResult footerResult).1.isLoggedIn =
      loginResult ∧
    (∀ e, footerResult = Except.error e →
      (loadDeferredData cartResult loginResult footerResult).1.footer =
        Except.ok none ∧
      (loadDeferredData cartResult loginResult footerResult).2 = [e]) ∧
    (∃ pd, (loader shopAnalytics env url (Except.ok headerValue) cartResult
        loginResult footerResult).1 = Except.ok pd) := by
  refine ⟨rfl, rfl, ?_, ⟨_, rfl⟩⟩
  rintro e rfl
  exact ⟨rfl, rfl⟩

/-- C3 amended witness: concrete rejected cart and footer promises; the
footer is replaced and logged, and the loader still resolves. -/
theorem claim3_deferred_policy_witness :
    (loadDeferredData (Except.error 3 : Except Nat Nat)
      (Except.ok true : Except Nat Bool) (Except.error 9 : Except Nat Nat)).1.footer =
      Except.ok none ∧
    ∃ pd, (loader () env0 url0 (Except.ok 5 : Except Nat Nat)
        (Except.error 3 : Except Nat Nat) (Except.ok true : Except Nat Bool)
        (Except.error 9 : Except Nat Nat)).1 = Except.ok pd :=
  ⟨((claim3_deferred_policy () env0 url0 (5 : Nat) _ _ _).2.2.1 9 rfl).1,
   (claim3_deferred_policy () env0 url0 (5 : Nat) (Except.error 3)
     (Except.ok true) (Except.error 9)).2.2.2⟩

/-! ## C1: the canonical-URL invariant -/

/-- C1 counterexample: for an input pathname with two consecutive locale
segments only the first is stripped, so the canonical URL still carries a
leading locale segment in its path. -/
theorem claim1_counterexample :
    beginsWithLocale (cleanLocaleFromPathname "/en-us/fr-ca/shop".toList) = true ∧
    createCanonicalUrl { origin := "https://www.honeylove.com".toList
                         host := "www.honeylove.com".toList
                         pathname := "/en-us/fr-ca/shop".toList
                         searchParams := [] } =
      "https://www.honeylove.com/fr-ca/shop".toList :=
  ⟨by decide, by decide⟩

/-- C1 amended: the canonical and hreflang URLs carry only whitelisted query
parameters; one leading locale segment is stripped, so no locale path prefix
remains whenever the input pathname does not begin with two consecutive
locale segments. -/
theorem claim1_canonical_invariant (url : Url)
    (hd : beginsWithDoubleLocale url.pathname = false) :
    (∀ kv ∈ keptParams url, kv.1 ∈ whitelistedParams) ∧
    beginsWithLocale (cleanLocaleFromPathname url.pathname) = false ∧
    (createCanonicalUrl url = url.origin ++ cleanLocaleFromPathname url.pathname ∨
     createCanonicalUrl url = url.origin ++ cleanLocaleFromPathname url.pathname ++
       '?' :: cleanParams url) ∧
    (∀ entry ∈ createHreflangs url, entry.url = createCanonicalUrl url) := by
  refine ⟨fun kv hkv => (mem_keptParams_iff.mp hkv).2, ?_, ?_, ?_⟩
  · cases heq : localeMatch url.pathname with
    | none => rw [cleanLocale_of_none heq]; simp [beginsWithLocale, heq]
    | some m =>
      rw [cleanLocale_of_some heq]
      unfold beginsWithDoubleLocale at hd
      rw [heq] at hd
      exact hd
  · by_cases h : cleanParams url = []
    · exact Or.inl (by simp [createCanonicalUrl, h])
    · exact Or.inr (by simp [createCanonicalUrl, h])
  · intro entry hmem
    rw [createHreflangs_eq, List.mem_singleton] at hmem
    rw [hmem]

/-- C1 amended witness: a concrete single-locale pathname leaves no locale
prefix in the canonical URL. -/
theorem claim1_canonical_invariant_witness :
    beginsWithLocale
      (cleanLocaleFromPathname "/en-us/shop".toList) = false :=
  (claim1_canonical_invariant
    { origin := "https://www.honeylove.com".toList
      host := "www.honeylove.com".toList
      pathname := "/en-us/shop".toList
      searchParams := [] } (by decide)).2.1

end Root
